import Mathlib

/-!
Verification of the PreREISE RAP wind-data retrieval core
(`prereise/gather/winddata/rap/rap.py`) against its natural-language
specification.

The Python module is shallowly embedded below:

* `ll2uv`, `angular_distance` — the geometry helpers (lines 18–53 of the
  source), over exact reals.
* `get_power` — the power-curve conversion (lines 56–70).  The power-curve
  table `PowerCurves` is loaded from a CSV that is not part of the source
  tree; it is modelled as an explicit parameter `curve : List (Int × ℝ)`
  pairing each row's integer speed bin with the selected turbine class's
  normalized-power value, in file order.  Crucially, the source reads the
  CSV with a default positional index, so `PowerCurves[turbine][match]
  .index.values` yields the *row positions* of the matched rows, not their
  speed-bin values; the embedding reproduces this.
* `retrieve_data` — the per-hour retrieval loop (lines 73–188).  Network
  fetches become a function `fetch : RequestKey → Option GridSnapshot`
  (`none` models a non-200 status).  Dates are modelled as integer day
  ordinals; timestamps as integer hours.  A Python `KeyError` (raised when
  `target2grid` lacks a site id) is modelled by `Except.error`.  NaN
  sentinels for missing hours become `none : Option ℝ`.  The final
  `sort_values`/`reset_index` is modelled by a stable sort on a list (a
  Lean list is densely zero-indexed by construction).
-/

namespace Rap

/-- A 3-component vector, as returned by `ll2uv`. -/
structure Vec3 where
  x : ℝ
  y : ℝ
  z : ℝ

/-- `math.radians`: degrees to radians. -/
noncomputable def radians (d : ℝ) : ℝ := d * Real.pi / 180

/-- `math.degrees`: radians to degrees. -/
noncomputable def degrees (r : ℝ) : ℝ := r * 180 / Real.pi

/-- `ll2uv(lon, lat)` (rap.py lines 18–36): spherical-to-Cartesian
conversion of a (longitude, latitude) pair, in degrees, to a unit vector. -/
noncomputable def ll2uv (lon lat : ℝ) : Vec3 where
  x := Real.cos (radians lat) * Real.cos (radians lon)
  y := Real.cos (radians lat) * Real.sin (radians lon)
  z := Real.sin (radians lat)

/-- The dot product computed at rap.py line 46. -/
noncomputable def dotp (a b : Vec3) : ℝ := a.x * b.x + a.y * b.y + a.z * b.z

/-- `angular_distance(uv1, uv2)` (rap.py lines 39–53): dot product,
clamped first at 1 from above then at -1 from below (two sequential `if`
statements), then `degrees(acos(...))`. -/
noncomputable def angular_distance (uv1 uv2 : Vec3) : ℝ :=
  let c0 := dotp uv1 uv2
  let c1 := if 1 ≤ c0 then (1 : ℝ) else c0
  let c2 := if c1 ≤ -1 then (-1 : ℝ) else c1
  degrees (Real.arccos c2)

/-- `np.interp(x, xp, fp)` on the point list `pts = xp.zip fp` (assumed
strictly increasing in the first component, as numpy requires): piecewise
linear interpolation, clamped to the first (resp. last) value left (resp.
right) of the sampled range.  With a single point numpy returns that
point's value for every `x`. -/
noncomputable def interp (x : ℝ) : List (ℝ × ℝ) → ℝ
  | [] => 0
  | [p] => p.2
  | p :: q :: rest =>
      if x ≤ p.1 then p.2
      else if x ≤ q.1 then p.2 + (q.2 - p.2) * (x - p.1) / (q.1 - p.1)
      else interp x (q :: rest)

/-- The row-selection mask of rap.py lines 63–64, applied to an
enumerated row `(position, (bin, value))`: keep the rows whose speed bin
lies in `[floor(wspd), ceil(wspd)]`. -/
noncomputable def binPred (wspd : ℝ) (p : Nat × (Int × ℝ)) : Bool :=
  decide (Int.floor wspd ≤ p.2.1 ∧ p.2.1 ≤ Int.ceil wspd)

/-- `get_power(wspd, turbine)` (rap.py lines 56–70).  `curve` is the
`Speed bin (m/s)` column zipped with the selected turbine-class column, in
CSV row order.  The source selects the rows whose bin lies in
`[floor(wspd), ceil(wspd)]`; if none match it returns 0; otherwise it calls
`np.interp` with `xp` equal to the *positional index* of the matched rows
(the DataFrame is read without `index_col`, so its index is 0,1,2,…) and
`fp` equal to the matched normalized-power values. -/
noncomputable def get_power (curve : List (Int × ℝ)) (wspd : ℝ) : ℝ :=
  let matched := curve.enum.filter (binPred wspd)
  if matched.isEmpty then 0
  else interp wspd (matched.map (fun p => ((p.1 : ℝ), p.2.2)))

/-- One wind farm (one row of the `wind_farm` DataFrame): index value
(plant id), `lon`, `lat`, `GenMWMax`. -/
structure Site where
  id : Int
  lon : ℝ
  lat : ℝ
  capacity : ℝ

/-- One hour's grid snapshot, as read from the downloaded netCDF file
(rap.py lines 143–146): flattened parallel arrays of grid longitude, grid
latitude, and U/V wind components.  The external contract (spec §6) is
that the four arrays are co-indexed. -/
structure GridSnapshot where
  lonGrid : List ℝ
  latGrid : List ℝ
  uWsp : List ℝ
  vWsp : List ℝ

/-- One row of the output DataFrame.  `U`, `V`, `Pout` are `none` for a
missing hour (the source stores `np.nan`).  `ts` is the UTC timestamp in
hours (the source's `dt`, which starts at `start_date` and advances one
hour per scheduled file). -/
structure OutputRow where
  plantID : Int
  U : Option ℝ
  V : Option ℝ
  Pout : Option ℝ
  ts : Int
  tsID : Int

/-- The one way the retrieval loop can raise: `target2grid[id]` with the
id absent (a Python `KeyError` at rap.py line 159/161). -/
inductive RunError where
  | keyError
deriving DecidableEq

/-- A request key identifies one scheduled hourly file: (day ordinal,
hour-of-day index 0–23).  The source encodes the hour as the string
`'0000'..'2300'` inside the URL; the pair is a faithful key for it. -/
abbrev RequestKey := Int × Nat

/-- `np.argmin` scan: index of the first strictly smallest element seen so
far, given the current best value/index and the index of the next
element. -/
noncomputable def argminFrom : List ℝ → Nat → ℝ → Nat → Nat
  | [], bi, _, _ => bi
  | a :: rest, bi, bv, i =>
      if a < bv then argminFrom rest i a (i + 1)
      else argminFrom rest bi bv (i + 1)

/-- `np.argmin`: index of the first minimum of the list (the source never
applies it to an empty array; 0 is returned for the empty list). -/
noncomputable def argmin : List ℝ → Nat
  | [] => 0
  | a :: rest => argminFrom rest 0 a 1

/-- The inner loop of rap.py lines 152–157 for one site: angular distance
from the site's unit vector to every grid point `k < len(lon_grid)`, then
`np.argmin`. -/
noncomputable def nearestIndex (s : Site) (snap : GridSnapshot) : Nat :=
  let uvTarget := ll2uv s.lon s.lat
  argmin ((List.range snap.lonGrid.length).map
    (fun k => angular_distance uvTarget
      (ll2uv (snap.lonGrid.getD k 0) (snap.latGrid.getD k 0))))

/-- The `target2grid` dictionary built at rap.py lines 152–157: one entry
per site, in site order, mapping plant id to nearest grid index. -/
noncomputable def buildMap (sites : List Site) (snap : GridSnapshot) :
    List (Int × Nat) :=
  sites.map (fun s => (s.id, nearestIndex s snap))

/-- The row built for one site on a successful fetch (rap.py lines
135–166): U/V extracted at the mapped grid index, wind speed
`sqrt(U^2 + V^2)`, power `get_power(wspd) * capacity`. -/
noncomputable def successRow (curve : List (Int × ℝ)) (s : Site)
    (snap : GridSnapshot) (k : Nat) (d1 : Int) (i : Nat) : OutputRow :=
  let u := snap.uWsp.getD k 0
  let v := snap.vWsp.getD k 0
  let wspd := Real.sqrt (u ^ 2 + v ^ 2)
  { plantID := s.id
    U := some u
    V := some v
    Pout := some (get_power curve wspd * s.capacity)
    ts := d1 * 24 + i
    tsID := (i : Int) + 1 }

/-- The row built for one site on a failed fetch (rap.py lines 135–137 and
173–176): NaN (here `none`) wind components and power. -/
def missingRow (s : Site) (d1 : Int) (i : Nat) : OutputRow :=
  { plantID := s.id
    U := none
    V := none
    Pout := none
    ts := d1 * 24 + i
    tsID := (i : Int) + 1 }

/-- Build the per-hour rows site by site, failing at the first site whose
id is absent from `target2grid` — exactly where the source's list
comprehension at line 159 raises `KeyError`. -/
def extractRows (f : Site → Except RunError OutputRow) :
    List Site → Except RunError (List OutputRow)
  | [] => Except.ok []
  | s :: rest =>
      match f s with
      | Except.ok r =>
          match extractRows f rest with
          | Except.ok rs => Except.ok (r :: rs)
          | Except.error e => Except.error e
      | Except.error e => Except.error e

/-- The mutable state of the download loop: the `missing` list, the
`target2grid` dictionary, and the accumulating `data` table. -/
structure LoopState where
  missing : List RequestKey
  target2grid : List (Int × Nat)
  data : List OutputRow

/-- The success-branch row construction of rap.py lines 159–166: one row
per site, each requiring its id to be present in `target2grid` (otherwise
`KeyError`). -/
noncomputable def hourRows (sites : List Site) (curve : List (Int × ℝ))
    (snap : GridSnapshot) (t2g : List (Int × Nat)) (d1 : Int) (i : Nat) :
    Except RunError (List OutputRow) :=
  extractRows (fun s =>
    match t2g.lookup s.id with
    | some k => Except.ok (successRow curve s snap k d1 i)
    | none => Except.error RunError.keyError) sites

/-- The body of the loop at rap.py lines 129–179 for one scheduled file.
On a 200 response: rebuild `target2grid` only if `data` is still empty
(line 149) — note that failure rows also populate `data` — then extract
U/V per site through the dictionary (KeyError when the id is absent) and
append one success row per site.  On failure: append the request key to
`missing` and one NaN row per site. -/
noncomputable def processHour (sites : List Site) (curve : List (Int × ℝ))
    (d1 : Int) (key : RequestKey) (snapOpt : Option GridSnapshot) (i : Nat)
    (st : LoopState) : Except RunError LoopState :=
  match snapOpt with
  | some snap =>
      let t2g := if st.data.isEmpty then buildMap sites snap else st.target2grid
      match hourRows sites curve snap t2g d1 i with
      | Except.ok rows => Except.ok ⟨st.missing, t2g, st.data ++ rows⟩
      | Except.error e => Except.error e
  | none =>
      Except.ok ⟨st.missing ++ [key], st.target2grid,
                 st.data ++ sites.map (fun s => missingRow s d1 i)⟩

/-- The full download loop: one `processHour` per scheduled file, with the
running file index `i` (the source's `enumerate`), propagating a raised
`KeyError`. -/
noncomputable def runLoop (sites : List Site) (curve : List (Int × ℝ))
    (d1 : Int) (fetch : RequestKey → Option GridSnapshot) :
    List RequestKey → Nat → LoopState → Except RunError LoopState
  | [], _, st => Except.ok st
  | key :: rest, i, st =>
      match processHour sites curve d1 key (fetch key) i st with
      | Except.ok st' => runLoop sites curve d1 fetch rest (i + 1) st'
      | Except.error e => Except.error e

/-- Number of days in the inclusive date range (0 when the end precedes
the start, matching the `while start <= end` loop at line 101). -/
def numDays (d1 d2 : Int) : Nat := (d2 - d1 + 1).toNat

/-- The request schedule built at rap.py lines 100–106: for every day of
the inclusive range, 24 hourly files. -/
def files (d1 d2 : Int) : List RequestKey :=
  (List.range (numDays d1 d2)).flatMap
    (fun j => (List.range 24).map (fun h => (d1 + j, h)))

/-- `astype(np.int32)` on an integer value: wrap into
`[-2^31, 2^31)`. -/
def toInt32 (x : Int) : Int := (x + 2 ^ 31) % 2 ^ 32 - 2 ^ 31

/-- The sort key of `data.sort_values(by=['tsID', 'plantID'])`:
lexicographic (tsID, plantID), non-strict. -/
def rowLe (a b : OutputRow) : Prop :=
  a.tsID < b.tsID ∨ (a.tsID = b.tsID ∧ a.plantID ≤ b.plantID)

/-- Strict lexicographic (tsID, plantID) order: `rowLe` together with
distinctness of the key pairs. -/
def rowLt (a b : OutputRow) : Prop :=
  a.tsID < b.tsID ∨ (a.tsID = b.tsID ∧ a.plantID < b.plantID)

instance : DecidableRel rowLe := fun _ _ =>
  inferInstanceAs (Decidable (_ ∨ _))

instance : DecidableRel rowLt := fun _ _ =>
  inferInstanceAs (Decidable (_ ∨ _))

instance : IsTotal OutputRow rowLe where
  total a b := by
    unfold rowLe
    rcases lt_trichotomy a.tsID b.tsID with h | h | h
    · exact Or.inl (Or.inl h)
    · rcases le_total a.plantID b.plantID with h2 | h2
      · exact Or.inl (Or.inr ⟨h, h2⟩)
      · exact Or.inr (Or.inr ⟨h.symm, h2⟩)
    · exact Or.inr (Or.inl h)

instance : IsTrans OutputRow rowLe where
  trans a b c hab hbc := by
    unfold rowLe at hab hbc ⊢
    rcases hab with h1 | ⟨h1, h1p⟩ <;> rcases hbc with h2 | ⟨h2, h2p⟩
    · exact Or.inl (h1.trans h2)
    · exact Or.inl (h2 ▸ h1)
    · exact Or.inl (h1 ▸ h2)
    · exact Or.inr ⟨h1.trans h2, h1p.trans h2p⟩

/-- `retrieve_data(wind_farm, start_date, end_date)` (rap.py lines
73–188), with the network abstracted as `fetch`.  Runs the download loop
over the schedule, then normalizes `plantID`/`tsID` to int32, sorts by
(tsID, plantID) and resets to a dense zero-based row index (a Lean list is
densely zero-indexed; the sort is stable, which refines pandas'
unspecified tie order — ties cannot arise under distinct key pairs). -/
noncomputable def retrieve_data (sites : List Site) (curve : List (Int × ℝ))
    (d1 d2 : Int) (fetch : RequestKey → Option GridSnapshot) :
    Except RunError (List OutputRow × List RequestKey) :=
  match runLoop sites curve d1 fetch (files d1 d2) 0 ⟨[], [], []⟩ with
  | Except.ok st =>
      let tbl := st.data.map (fun r =>
        { r with plantID := toInt32 r.plantID, tsID := toInt32 r.tsID })
      Except.ok (List.insertionSort rowLe tbl, st.missing)
  | Except.error e => Except.error e

/-! ### Geometry lemmas (GeoIndexer) -/

/-- `ll2uv` returns a vector of squared norm 1 (shared helper). -/
theorem ll2uv_normSq (lon lat : ℝ) :
    (ll2uv lon lat).x ^ 2 + (ll2uv lon lat).y ^ 2 + (ll2uv lon lat).z ^ 2 = 1 := by
  have h1 := Real.sin_sq_add_cos_sq (radians lat)
  have h2 := Real.sin_sq_add_cos_sq (radians lon)
  simp only [ll2uv]
  linear_combination (Real.cos (radians lat)) ^ 2 * h2 + h1

/-- C10: for every longitude and latitude (in degrees), the vector
returned by `ll2uv` has squared Euclidean norm exactly 1 in exact real
arithmetic, and consequently the dot product of two such vectors always
lies in [-1, 1]. -/
theorem c10_ll2uv_unit_norm (lon lat lon2 lat2 : ℝ) :
    (ll2uv lon lat).x ^ 2 + (ll2uv lon lat).y ^ 2 + (ll2uv lon lat).z ^ 2 = 1 ∧
    -1 ≤ dotp (ll2uv lon lat) (ll2uv lon2 lat2) ∧
    dotp (ll2uv lon lat) (ll2uv lon2 lat2) ≤ 1 := by
  have ha := ll2uv_normSq lon lat
  have hb := ll2uv_normSq lon2 lat2
  set a := ll2uv lon lat
  set b := ll2uv lon2 lat2
  refine ⟨ha, ?_, ?_⟩
  · have h := sq_nonneg (a.x + b.x)
    have h2 := sq_nonneg (a.y + b.y)
    have h3 := sq_nonneg (a.z + b.z)
    simp only [dotp]
    nlinarith [ha, hb, h, h2, h3]
  · have h := sq_nonneg (a.x - b.x)
    have h2 := sq_nonneg (a.y - b.y)
    have h3 := sq_nonneg (a.z - b.z)
    simp only [dotp]
    nlinarith [ha, hb, h, h2, h3]

/-- C9: `angular_distance` clamps the dot product to [-1, 1] before the
inverse cosine, so a dot product at least 1 (e.g. 1.0000001) yields
exactly 0 degrees and a dot product at most -1 (e.g. -1.0000001) yields
exactly 180 degrees — no domain error is possible. -/
theorem c9_clamped_no_domain_error (u1 v1 u2 v2 : Vec3) :
    (1 ≤ dotp u1 v1 → angular_distance u1 v1 = 0) ∧
    (dotp u2 v2 ≤ -1 → angular_distance u2 v2 = 180) := by
  constructor
  · intro h
    simp only [angular_distance]
    rw [if_pos h, if_neg (by norm_num : ¬(1 : ℝ) ≤ -1), Real.arccos_one]
    unfold degrees
    simp
  · intro h
    have hnot : ¬(1 ≤ dotp u2 v2) := by linarith
    simp only [angular_distance]
    rw [if_neg hnot, if_pos h, Real.arccos_neg_one]
    unfold degrees
    rw [mul_comm, mul_div_assoc, div_self Real.pi_ne_zero, mul_one]

/-- Witness for C9 at the spec's concrete overshoot inputs: vectors with
dot product 1.0000001 give 0 degrees, and with dot product -1.0000001
give 180 degrees. -/
theorem c9_clamped_no_domain_error_witness :
    ((1 : ℝ) ≤ dotp ⟨10000001 / 10000000, 0, 0⟩ ⟨1, 0, 0⟩ ∧
      angular_distance ⟨10000001 / 10000000, 0, 0⟩ ⟨1, 0, 0⟩ = 0) ∧
    (dotp ⟨-(10000001 / 10000000), 0, 0⟩ ⟨1, 0, 0⟩ ≤ -1 ∧
      angular_distance ⟨-(10000001 / 10000000), 0, 0⟩ ⟨1, 0, 0⟩ = 180) := by
  have h1 : (1 : ℝ) ≤ dotp ⟨10000001 / 10000000, 0, 0⟩ ⟨1, 0, 0⟩ := by
    simp only [dotp]
    norm_num
  have h2 : dotp (⟨-(10000001 / 10000000), 0, 0⟩ : Vec3) ⟨1, 0, 0⟩ ≤ -1 := by
    simp only [dotp]
    norm_num
  have hmain := c9_clamped_no_domain_error
    ⟨10000001 / 10000000, 0, 0⟩ ⟨1, 0, 0⟩
    ⟨-(10000001 / 10000000), 0, 0⟩ ⟨1, 0, 0⟩
  exact ⟨⟨h1, hmain.1 h1⟩, ⟨h2, hmain.2 h2⟩⟩

/-! ### Power-curve lemmas (PowerCurveConverter)

The power-curve CSV itself is not part of the source tree (spec §6 treats
it as an external resource: a table of integer speed bins, one
normalized-power column per turbine class), so `curve` is quantified over
all such tables; the spec's own §8 example table `{5: 0.1, 6: 0.3}` is
used as the concrete instance. -/

theorem enumFrom_append (l1 l2 : List (Int × ℝ)) (n : Nat) :
    (l1 ++ l2).enumFrom n = l1.enumFrom n ++ l2.enumFrom (n + l1.length) := by
  induction l1 generalizing n with
  | nil => simp
  | cons a t ih =>
      simp only [List.cons_append, List.enumFrom_cons, ih, List.length_cons,
        List.cons_append]
      congr 3
      omega

/-- Rows that all fail the bin mask filter to nothing. -/
theorem filter_binPred_nil (s : ℝ) (l : List (Int × ℝ)) (n : Nat)
    (h : ∀ q ∈ l, q.1 < Int.floor s ∨ Int.ceil s < q.1) :
    (l.enumFrom n).filter (binPred s) = [] := by
  induction l generalizing n with
  | nil => simp
  | cons a t ih =>
      simp only [List.enumFrom_cons, List.filter_cons]
      have ha := h a (List.mem_cons_self a t)
      have hfalse : binPred s (n, a) = false := by
        simp only [binPred, decide_eq_false_iff_not]
        intro hc
        rcases ha with hlt | hgt
        · exact absurd hc.1 (not_le.mpr hlt)
        · exact absurd hc.2 (not_le.mpr hgt)
      rw [hfalse]
      simp only [Bool.false_eq_true, if_false]
      exact ih (n + 1) (fun q hq => h q (List.mem_cons_of_mem a hq))

/-- Rows that all pass the bin mask are kept verbatim. -/
theorem filter_binPred_all (s : ℝ) (l : List (Int × ℝ)) (n : Nat)
    (h : ∀ q ∈ l, Int.floor s ≤ q.1 ∧ q.1 ≤ Int.ceil s) :
    (l.enumFrom n).filter (binPred s) = l.enumFrom n := by
  induction l generalizing n with
  | nil => simp
  | cons a t ih =>
      simp only [List.enumFrom_cons, List.filter_cons]
      have htrue : binPred s (n, a) = true := by
        simp only [binPred, decide_eq_true_eq]
        exact h a (List.mem_cons_self a t)
      rw [htrue]
      simp only [if_true]
      rw [ih (n + 1) (fun q hq => h q (List.mem_cons_of_mem a hq))]

/-- C4 counterexample: on the spec's §8 table `{5: 0.1, 6: 0.3}` the speed
4.5 lies below the lowest bin (5), yet `get_power` returns 0.1 (the
clamped value stored at bin 5), not 0. -/
theorem c4_below_lowest_bin_counterexample :
    get_power [(5, 1 / 10), (6, 3 / 10)] (9 / 2) = 1 / 10 ∧
    (9 / 2 : ℝ) < 5 ∧ (1 / 10 : ℝ) ≠ 0 := by
  have hfloor : Int.floor ((9 : ℝ) / 2) = 4 := by
    rw [Int.floor_eq_iff]
    norm_num
  have hceil : Int.ceil ((9 : ℝ) / 2) = 5 := by
    rw [Int.ceil_eq_iff]
    norm_num
  refine ⟨?_, by norm_num, by norm_num⟩
  have hmask0 : binPred ((9 : ℝ) / 2) (0, (5, 1 / 10)) = true := by
    simp only [binPred, decide_eq_true_eq, hfloor, hceil]
    norm_num
  have hmask1 : binPred ((9 : ℝ) / 2) (1, (6, 3 / 10)) = false := by
    simp only [binPred, decide_eq_false_iff_not, hfloor, hceil]
    norm_num
  simp only [get_power, List.enum, List.enumFrom_cons, List.enumFrom_nil,
    List.filter_cons, List.filter_nil, hmask0, hmask1]
  norm_num [interp]

/-- C4 (amended): `get_power` returns 0 exactly when the mask is empty:
for every speed at least one unit below every bin (in particular, at
least one unit below the lowest) and every speed at least one unit above
every bin.  (Speeds strictly inside one unit of the table's edge match
the edge row alone and return its stored value, as the counterexample
shows.) -/
theorem c4_amended_out_of_range_zero (curve : List (Int × ℝ)) (wspd : ℝ)
    (h : ∀ p ∈ curve, wspd ≤ (p.1 : ℝ) - 1 ∨ (p.1 : ℝ) + 1 ≤ wspd) :
    get_power curve wspd = 0 := by
  have hsep : ∀ q ∈ curve, q.1 < Int.floor wspd ∨ Int.ceil wspd < q.1 := by
    intro q hq
    rcases h q hq with hle | hge
    · right
      have hc : Int.ceil wspd ≤ q.1 - 1 := by
        apply Int.ceil_le.mpr
        push_cast
        linarith
      omega
    · left
      have hf : q.1 + 1 ≤ Int.floor wspd := by
        apply Int.le_floor.mpr
        push_cast
        linarith

      omega
  have hnil : curve.enum.filter (binPred wspd) = [] := by
    have := filter_binPred_nil wspd curve 0 hsep
    simpa [List.enum] using this
  simp only [get_power, hnil, List.isEmpty_nil, if_true]

/-- Witness for the amended C4: on the §8 table, speed 7 (one unit above
the highest bin 6) yields power 0. -/
theorem c4_amended_out_of_range_zero_witness :
    (∀ p ∈ [((5 : Int), (1 : ℝ) / 10), (6, 3 / 10)],
      (7 : ℝ) ≤ (p.1 : ℝ) - 1 ∨ (p.1 : ℝ) + 1 ≤ 7) ∧
    get_power [(5, 1 / 10), (6, 3 / 10)] 7 = 0 := by
  have h : ∀ p ∈ [((5 : Int), (1 : ℝ) / 10), (6, 3 / 10)],
      (7 : ℝ) ≤ (p.1 : ℝ) - 1 ∨ (p.1 : ℝ) + 1 ≤ 7 := by
    intro p hp
    simp only [List.mem_cons, List.not_mem_nil, or_false] at hp
    rcases hp with rfl | rfl
    · right
      norm_num
    · right
      norm_num
  exact ⟨h, c4_amended_out_of_range_zero _ _ h⟩

/-- C8 counterexample: on the spec's §8 table `{5: 0.1, 6: 0.3}` stored as
a two-row CSV, speed 5.5 matches both rows, but `np.interp` receives their
*row positions* 0 and 1 (the DataFrame's default index), not the bins 5
and 6; 5.5 lies right of the segment [0, 1], so the result is the clamped
right endpoint 0.3 — not the interpolated 0.2 the claim expects. -/
theorem c8_positional_index_counterexample :
    get_power [(5, 1 / 10), (6, 3 / 10)] (11 / 2) = 3 / 10 ∧
    (3 / 10 : ℝ) ≠ 2 / 10 := by
  have hfloor : Int.floor ((11 : ℝ) / 2) = 5 := by
    rw [Int.floor_eq_iff]
    norm_num
  have hceil : Int.ceil ((11 : ℝ) / 2) = 6 := by
    rw [Int.ceil_eq_iff]
    norm_num
  refine ⟨?_, by norm_num⟩
  have hmask0 : binPred ((11 : ℝ) / 2) (0, (5, 1 / 10)) = true := by
    simp only [binPred, decide_eq_true_eq, hfloor, hceil]
    norm_num
  have hmask1 : binPred ((11 : ℝ) / 2) (1, (6, 3 / 10)) = true := by
    simp only [binPred, decide_eq_true_eq, hfloor, hceil]
    norm_num
  simp only [get_power, List.enum, List.enumFrom_cons, List.enumFrom_nil,
    List.filter_cons, List.filter_nil, hmask0, hmask1]
  norm_num [interp]

/-- C8 (amended): `get_power` linearly interpolates the stored values
between the bins at `floor(s)` and `ceil(s)` exactly when the two matched
rows sit at row positions equal to their bins (as in a contiguous 0-based
integer-bin table, e.g. bins 0,1,…,n-1 in row order); and it degenerates
to the exact stored value when the speed is an integer bin (any row
position).  The first conjunct also needs the bins below `floor(s)` (resp.
above `ceil(s)`) to lie strictly before (resp. after) the matched pair in
row order, which holds for any bin-sorted table. -/
theorem c8_amended_interpolation :
    (∀ (pre post : List (Int × ℝ)) (y1 y2 s : ℝ),
      (pre.length : Int) = Int.floor s →
      Int.floor s < Int.ceil s →
      (∀ p ∈ pre, p.1 < Int.floor s) →
      (∀ p ∈ post, Int.ceil s < p.1) →
      get_power (pre ++ [(Int.floor s, y1), (Int.ceil s, y2)] ++ post) s
        = y1 + (y2 - y1) * (s - Int.floor s)) ∧
    (∀ (pre post : List (Int × ℝ)) (y : ℝ) (b : Int),
      (∀ p ∈ pre, p.1 < b) →
      (∀ p ∈ post, b < p.1) →
      get_power (pre ++ [(b, y)] ++ post) ((b : ℝ)) = y) := by
  constructor
  · intro pre post y1 y2 s h1 h2 h3 h4
    have hceil : Int.ceil s = Int.floor s + 1 := by
      have := Int.ceil_le_floor_add_one s
      omega
    have hsl : (Int.floor s : ℝ) < s := by
      rcases lt_or_eq_of_le (Int.floor_le s) with hlt | heq
      · exact hlt
      · exfalso
        have hcc : Int.ceil s = Int.ceil ((Int.floor s : ℝ)) := by rw [heq]
        rw [Int.ceil_intCast] at hcc
        omega
    have hsr : s ≤ (Int.floor s : ℝ) + 1 := by
      have hc := Int.le_ceil s
      rw [hceil] at hc
      push_cast at hc
      linarith
    have hmatched : (pre ++ [(Int.floor s, y1), (Int.ceil s, y2)] ++ post).enum.filter
        (binPred s) =
        [(pre.length, (Int.floor s, y1)), (pre.length + 1, (Int.ceil s, y2))] := by
      rw [List.enum, List.append_assoc, enumFrom_append, List.filter_append]
      rw [filter_binPred_nil s pre 0 (fun q hq => Or.inl (h3 q hq)), List.nil_append]
      rw [enumFrom_append, List.filter_append]
      rw [filter_binPred_nil s post _ (fun q hq => Or.inr (h4 q hq)), List.append_nil]
      rw [filter_binPred_all s _ _ ?side]
      · simp [Nat.zero_add]
      case side =>
        intro q hq
        simp only [List.mem_cons, List.not_mem_nil, or_false] at hq
        rcases hq with rfl | rfl
        · exact ⟨le_refl _, Int.floor_le_ceil s⟩
        · exact ⟨Int.floor_le_ceil s, le_refl _⟩
    have hLcast : ((pre.length : ℝ)) = ((Int.floor s : ℝ)) := by exact_mod_cast h1
    simp only [get_power, hmatched, List.isEmpty_cons, List.map_cons, List.map_nil]
    rw [if_neg (by simp)]
    simp only [interp]
    rw [if_neg (by
      rw [hLcast]
      exact not_le.mpr hsl), if_pos (by
      push_cast
      rw [hLcast]
      linarith)]
    push_cast
    rw [hLcast]
    have hone : ((Int.floor s : ℝ) + 1 - (Int.floor s : ℝ)) = 1 := by ring
    rw [hone, div_one]
  · intro pre post y b h3 h4
    have hfloor : Int.floor ((b : ℝ)) = b := Int.floor_intCast b
    have hceil : Int.ceil ((b : ℝ)) = b := Int.ceil_intCast b
    have hmatched : (pre ++ [(b, y)] ++ post).enum.filter (binPred ((b : ℝ))) =
        [(pre.length, (b, y))] := by
      rw [List.enum, List.append_assoc, enumFrom_append, List.filter_append]
      rw [filter_binPred_nil _ pre 0 (fun q hq => Or.inl (by rw [hfloor]; exact h3 q hq)),
        List.nil_append]
      rw [enumFrom_append, List.filter_append]
      rw [filter_binPred_nil _ post _ (fun q hq => Or.inr (by rw [hceil]; exact h4 q hq)),
        List.append_nil]
      rw [filter_binPred_all _ _ _ ?sideb]
      · simp [Nat.zero_add]
      case sideb =>
        intro q hq
        simp only [List.mem_cons, List.not_mem_nil, or_false] at hq
        rcases hq with rfl
        exact ⟨by rw [hfloor], by rw [hceil]⟩
    simp only [get_power, hmatched, List.isEmpty_cons, List.map_cons, List.map_nil]
    rw [if_neg (by simp)]
    simp only [interp]

/-- Witness for the amended C8, following the spec's §8 scenario with the
table laid out so that row positions equal bins (bins 0–6, with 0.1 at
bin 5 and 0.3 at bin 6): speed 5.5 interpolates to 0.2, hence 20 MW and
10 MW at capacities 100 MW and 50 MW; and an exact integer bin returns
the stored value exactly. -/
theorem c8_amended_interpolation_witness :
    get_power [(0, 0), (1, 0), (2, 0), (3, 0), (4, 0), (5, 1 / 10), (6, 3 / 10)]
      (11 / 2) = 2 / 10 ∧
    (2 / 10 : ℝ) * 100 = 20 ∧ (2 / 10 : ℝ) * 50 = 10 ∧
    get_power [(0, 0), (1, 0), (2, 0), (3, 0), (4, 0), (5, 1 / 10)] (5 : ℝ) = 1 / 10 := by
  have hfloor : Int.floor ((11 : ℝ) / 2) = 5 := by
    rw [Int.floor_eq_iff]
    norm_num
  have hceil : Int.ceil ((11 : ℝ) / 2) = 6 := by
    rw [Int.ceil_eq_iff]
    norm_num
  have hpre : ∀ p ∈ [((0 : Int), (0 : ℝ)), (1, 0), (2, 0), (3, 0), (4, 0)],
      p.1 < Int.floor ((11 : ℝ) / 2) := by
    intro p hp
    rw [hfloor]
    simp only [List.mem_cons, List.not_mem_nil, or_false] at hp
    rcases hp with rfl | rfl | rfl | rfl | rfl <;> norm_num
  have h1 := c8_amended_interpolation.1
    [((0 : Int), (0 : ℝ)), (1, 0), (2, 0), (3, 0), (4, 0)] [] (1 / 10) (3 / 10)
    (11 / 2)
    (by rw [hfloor]; rfl)
    (by rw [hfloor, hceil]; norm_num)
    hpre
    (by intro p hp; exact absurd hp (List.not_mem_nil p))
  rw [hfloor, hceil] at h1
  have hpre2 : ∀ p ∈ [((0 : Int), (0 : ℝ)), (1, 0), (2, 0), (3, 0), (4, 0)],
      p.1 < (5 : Int) := by
    intro p hp
    simp only [List.mem_cons, List.not_mem_nil, or_false] at hp
    rcases hp with rfl | rfl | rfl | rfl | rfl <;> norm_num
  have h2 := c8_amended_interpolation.2
    [((0 : Int), (0 : ℝ)), (1, 0), (2, 0), (3, 0), (4, 0)] [] (1 / 10) 5
    hpre2
    (by intro p hp; exact absurd hp (List.not_mem_nil p))
  have hc5 : ((5 : Int) : ℝ) = (5 : ℝ) := by norm_num
  rw [hc5] at h2
  refine ⟨?_, by norm_num, by norm_num, ?_⟩
  · rw [show ([((0 : Int), (0 : ℝ)), (1, 0), (2, 0), (3, 0), (4, 0)] ++
        [(5, 1 / 10), (6, 3 / 10)] ++ [] :
        List (Int × ℝ)) = [(0, 0), (1, 0), (2, 0), (3, 0), (4, 0), (5, 1 / 10), (6, 3 / 10)]
        from rfl] at h1
    rw [h1]
    norm_num
  · rw [show ([((0 : Int), (0 : ℝ)), (1, 0), (2, 0), (3, 0), (4, 0)] ++
        [(5, 1 / 10)] ++ [] :
        List (Int × ℝ)) = [(0, 0), (1, 0), (2, 0), (3, 0), (4, 0), (5, 1 / 10)]
        from rfl] at h2
    exact h2

/-! ### Retrieval-loop claims (TimeSeriesAssembler / Orchestrator) -/

/-- C1: with one site and one scheduled day whose hour-0 fetch fails and
whose remaining fetches succeed, the failed hour's NaN rows have already
populated `data`, so the `data.empty` guard at rap.py line 149 never
fires again, `target2grid` is never built from the first *successful*
snapshot (hour 1), and the extraction at line 159 raises `KeyError`,
aborting the run. -/
theorem c1_map_never_built_keyerror :
    retrieve_data [⟨5, 0, 0, 80⟩] [] 0 0
      (fun k => if k.2 = 0 then none else some ⟨[0], [0], [0], [0]⟩) =
    Except.error RunError.keyError := rfl

/-- C2: a per-hour fetch failure in the first position, followed by any
success, aborts the run with `KeyError` instead of completing — here two
leading failures and 22 successes. -/
theorem c2_aborts_mid_stream :
    retrieve_data [⟨11, 0, 0, 60⟩] [] 0 0
      (fun k => if k.2 ≤ 1 then none else some ⟨[0], [0], [1], [1]⟩) =
    Except.error RunError.keyError := rfl

/-- C7: when hour 0's fetch fails (two sites, remaining 23 fetches
succeed), the run aborts with `KeyError`, so the failed hour h = 0 is
*not* represented by one null row per site and the other hours produce no
rows at all. -/
theorem c7_failed_hour_aborts_run :
    retrieve_data [⟨2, 0, 0, 40⟩, ⟨4, 0, 0, 30⟩] [] 0 0
      (fun k => if k.2 = 0 then none else some ⟨[0], [0], [2], [2]⟩) =
    Except.error RunError.keyError := rfl

/-- C3 counterexample: the source performs no precondition validation.
With the end date strictly before the start date the schedule is empty
and the run returns an empty table and empty missing list — no error is
surfaced; with an empty site set the run proceeds through the whole
schedule (here one all-success day) and likewise returns
`Except.ok` with an empty table instead of failing. -/
theorem c3_no_precondition_check_counterexample :
    retrieve_data [⟨7, 0, 0, 100⟩] [] 1 0 (fun _ => none) = Except.ok ([], []) ∧
    retrieve_data [] [] 0 0 (fun _ => some ⟨[0], [0], [0], [0]⟩) =
      Except.ok ([], []) :=
  ⟨rfl, rfl⟩

/-- The loop never raises and accumulates no rows when the site set is
empty. -/
theorem runLoop_nil_sites (curve : List (Int × ℝ)) (d1 : Int)
    (fetch : RequestKey → Option GridSnapshot) :
    ∀ (fs : List RequestKey) (i : Nat) (st : LoopState),
      ∃ st', runLoop [] curve d1 fetch fs i st = Except.ok st' ∧
        st'.data = st.data := by
  intro fs
  induction fs with
  | nil =>
      intro i st
      exact ⟨st, rfl, rfl⟩
  | cons k rest ih =>
      intro i st
      simp only [runLoop, processHour]
      cases fetch k with
      | none =>
          simp only [List.map_nil, List.append_nil]
          obtain ⟨st', h1, h2⟩ := ih (i + 1) ⟨st.missing ++ [k], st.target2grid, st.data⟩
          exact ⟨st', h1, h2⟩
      | some snap =>
          simp only [hourRows, extractRows, List.append_nil]
          obtain ⟨st', h1, h2⟩ := ih (i + 1)
            ⟨st.missing, if st.data.isEmpty then buildMap [] snap else st.target2grid,
             st.data⟩
          exact ⟨st', h1, h2⟩

/-- C3 (amended): neither precondition is checked and no error is
surfaced.  An end date strictly before the start date yields an empty
schedule, so the run issues no request and returns an empty table and
empty missing list; an empty site set runs the whole schedule (issuing
every request) and returns a table with zero rows. -/
theorem c3_amended_no_fatal_error (sites : List Site) (curve : List (Int × ℝ))
    (d1 d2 : Int) (fetch : RequestKey → Option GridSnapshot) :
    (d2 < d1 → retrieve_data sites curve d1 d2 fetch = Except.ok ([], [])) ∧
    (sites = [] →
      ∃ miss, retrieve_data sites curve d1 d2 fetch = Except.ok ([], miss)) := by
  constructor
  · intro hd
    have hfiles : files d1 d2 = [] := by
      unfold files numDays
      have h0 : (d2 - d1 + 1).toNat = 0 := by omega
      rw [h0]
      rfl
    simp only [retrieve_data, hfiles]
    rfl
  · intro hs
    subst hs
    obtain ⟨st', hrun, hdata⟩ :=
      runLoop_nil_sites curve d1 fetch (files d1 d2) 0 ⟨[], [], []⟩
    refine ⟨st'.missing, ?_⟩
    simp only [retrieve_data, hrun, hdata, List.map_nil]
    rfl

/-- Witness for the amended C3 at a concrete input: start day 5, end day
3 (inverted range) and an empty site set. -/
theorem c3_amended_no_fatal_error_witness :
    ((3 : Int) < 5 ∧
      retrieve_data [] [] 5 3 (fun _ => none) = Except.ok ([], [])) ∧
    (∃ miss, retrieve_data [] [] 5 3 (fun _ => none) = Except.ok ([], miss)) := by
  have h := c3_amended_no_fatal_error [] [] 5 3 (fun _ => none)
  exact ⟨⟨by norm_num, h.1 (by norm_num)⟩, h.2 rfl⟩

/-- The (timestamp index, site id) sort key of a row. -/
def keyOf (r : OutputRow) : Int × Int := (r.tsID, r.plantID)

/-- The key pairs contributed by `n` consecutive scheduled hours starting
at file index `i`: one chunk per hour with `tsID = i+1`, in site order. -/
def keyChunks (ids : List Int) : Nat → Nat → List (Int × Int)
  | _, 0 => []
  | i, n + 1 => ids.map (fun a => ((i : Int) + 1, a)) ++ keyChunks ids (i + 1) n

/-- Generic fact about the per-site extraction: when it succeeds, the
produced rows are in site order and their images under `g` are determined
sitewise. -/
theorem extractRows_ok_map (f : Site → Except RunError OutputRow)
    (g : OutputRow → Int × Int) (g2 : Site → Int × Int)
    (hf : ∀ s r, f s = Except.ok r → g r = g2 s) :
    ∀ (sites : List Site) (rows : List OutputRow),
      extractRows f sites = Except.ok rows → rows.map g = sites.map g2 := by
  intro sites
  induction sites with
  | nil =>
      intro rows h
      simp only [extractRows] at h
      cases h
      rfl
  | cons s t ih =>
      intro rows h
      simp only [extractRows] at h
      cases hfs : f s with
      | error e =>
          rw [hfs] at h
          cases h
      | ok r =>
          rw [hfs] at h
          cases hrest : extractRows f t with
          | error e =>
              rw [hrest] at h
              cases h
          | ok rs =>
              rw [hrest] at h
              cases h
              simp only [List.map_cons, ih rs hrest, hf s r hfs]

/-- Keys of the rows of one successful hour: `tsID = i+1`, site ids in
site order. -/
theorem hourRows_ok_keys (sites : List Site) (curve : List (Int × ℝ))
    (snap : GridSnapshot) (t2g : List (Int × Nat)) (d1 : Int) (i : Nat)
    (rows : List OutputRow)
    (h : hourRows sites curve snap t2g d1 i = Except.ok rows) :
    rows.map keyOf = sites.map (fun s => ((i : Int) + 1, s.id)) := by
  apply extractRows_ok_map _ _ _ _ sites rows h
  intro s r hr
  cases hl : t2g.lookup s.id with
  | some k =>
      rw [hl] at hr
      simp only at hr
      cases hr
      rfl
  | none =>
      rw [hl] at hr
      exact Except.noConfusion hr

/-- Loop invariant: a completed loop extends the accumulated table with
exactly one row per (site, scheduled hour), whose keys are
`(file index + 1, site id)` in hour-major, site-minor order — whatever
the per-hour success/failure pattern was. -/
theorem runLoop_keys (sites : List Site) (curve : List (Int × ℝ)) (d1 : Int)
    (fetch : RequestKey → Option GridSnapshot) :
    ∀ (fs : List RequestKey) (i : Nat) (st st' : LoopState),
      runLoop sites curve d1 fetch fs i st = Except.ok st' →
      st'.data.map keyOf = st.data.map keyOf ++
        keyChunks (sites.map Site.id) i fs.length := by
  intro fs
  induction fs with
  | nil =>
      intro i st st' h
      simp only [runLoop] at h
      cases h
      simp [keyChunks]
  | cons k rest ih =>
      intro i st st' h
      simp only [runLoop] at h
      cases hph : processHour sites curve d1 k (fetch k) i st with
      | error e =>
          rw [hph] at h
          cases h
      | ok st1 =>
          rw [hph] at h
          have hkeys1 : st1.data.map keyOf = st.data.map keyOf ++
              (sites.map Site.id).map (fun a => ((i : Int) + 1, a)) := by
            cases hf : fetch k with
            | none =>
                rw [hf] at hph
                simp only [processHour] at hph
                cases hph
                simp only [List.map_append, List.map_map]
                rfl
            | some snap =>
                rw [hf] at hph
                simp only [processHour] at hph
                cases hex : hourRows sites curve snap
                    (if st.data.isEmpty then buildMap sites snap
                     else st.target2grid) d1 i with
                | error e =>
                    rw [hex] at hph
                    cases hph
                | ok rows =>
                    rw [hex] at hph
                    cases hph
                    simp only [List.map_append, List.map_map]
                    rw [hourRows_ok_keys _ _ _ _ _ _ _ hex]
                    rfl
          rw [ih (i + 1) st1 st' h, hkeys1]
          simp [keyChunks, List.append_assoc]

theorem keyChunks_length (ids : List Int) :
    ∀ (i n : Nat), (keyChunks ids i n).length = n * ids.length := by
  intro i n
  induction n generalizing i with
  | zero => simp [keyChunks]
  | succ m ih =>
      simp only [keyChunks, List.length_append, List.length_map, ih (i + 1)]
      ring

theorem files_length (d1 d2 : Int) :
    (files d1 d2).length = numDays d1 d2 * 24 := by
  unfold files
  rw [List.length_flatMap]
  simp [Function.comp_def, List.map_const', List.sum_replicate, smul_eq_mul]

/-- C6: every run that completes returns exactly
|sites| × ((end − start + 1) × 24) rows, regardless of how many per-hour
fetches failed (failed hours contribute placeholder rows, not gaps). -/
theorem c6_row_count (sites : List Site) (curve : List (Int × ℝ))
    (d1 d2 : Int) (fetch : RequestKey → Option GridSnapshot)
    (tbl : List OutputRow) (miss : List RequestKey)
    (hok : retrieve_data sites curve d1 d2 fetch = Except.ok (tbl, miss))
    (_hd : d1 ≤ d2) :
    tbl.length = sites.length * ((d2 - d1 + 1).toNat * 24) := by
  unfold retrieve_data at hok
  cases hrun : runLoop sites curve d1 fetch (files d1 d2) 0 ⟨[], [], []⟩ with
  | error e =>
      rw [hrun] at hok
      exact Except.noConfusion hok
  | ok st =>
      rw [hrun] at hok
      simp only [Except.ok.injEq, Prod.mk.injEq] at hok
      obtain ⟨h1, h2⟩ := hok
      subst h1
      have hkeys := runLoop_keys sites curve d1 fetch (files d1 d2) 0 ⟨[], [], []⟩ st hrun
      have hdlen : st.data.length = (files d1 d2).length * sites.length := by
        have hcong := congrArg List.length hkeys

        simpa [keyChunks_length] using hcong
      rw [List.length_insertionSort, List.length_map, hdlen, files_length]
      unfold numDays
      ring

theorem toInt32_eq_self (x : Int) (h1 : -(2 ^ 31) ≤ x) (h2 : x < 2 ^ 31) :
    toInt32 x = x := by
  unfold toInt32
  omega

/-- The int32 normalization is the identity on the key pairs of a run
whose site ids and file count fit in int32. -/
theorem keyChunks_map_toInt32 (ids : List Int)
    (hid : ∀ a ∈ ids, -(2 ^ 31) ≤ a ∧ a < 2 ^ 31) :
    ∀ (i n : Nat), ((i + n : Nat) : Int) < 2 ^ 31 →
      (keyChunks ids i n).map (fun p => (toInt32 p.1, toInt32 p.2)) =
        keyChunks ids i n := by
  intro i n
  induction n generalizing i with
  | zero =>
      intro _
      simp [keyChunks]
  | succ m ih =>
      intro hn
      push_cast at hn
      simp only [keyChunks, List.map_append]
      rw [ih (i + 1) (by push_cast; omega)]
      congr 1
      rw [List.map_map]
      apply List.map_congr_left
      intro a ha
      simp only [Function.comp_apply]
      rw [toInt32_eq_self ((i : Int) + 1) (by omega) (by omega),
          toInt32_eq_self a (hid a ha).1 (hid a ha).2]

/-- Every key in a chunk block starting at file index `i` has timestamp
index at least `i + 1`. -/
theorem keyChunks_fst_ge (ids : List Int) :
    ∀ (i n : Nat), ∀ q ∈ keyChunks ids i n, (i : Int) + 1 ≤ q.1 := by
  intro i n
  induction n generalizing i with
  | zero =>
      intro q hq
      simp [keyChunks] at hq
  | succ m ih =>
      intro q hq
      simp only [keyChunks, List.mem_append] at hq
      rcases hq with hq | hq
      · obtain ⟨a, _, rfl⟩ := List.mem_map.mp hq
        simp
      · have hge := ih (i + 1) q hq
        push_cast at hge ⊢
        omega

/-- With pairwise-distinct site ids, the key pairs of a whole run are
pairwise distinct. -/
theorem keyChunks_nodup (ids : List Int) (hids : ids.Nodup) :
    ∀ (i n : Nat), (keyChunks ids i n).Nodup := by
  intro i n
  induction n generalizing i with
  | zero =>
      simp [keyChunks]
  | succ m ih =>
      simp only [keyChunks]
      apply List.Nodup.append
      · exact hids.map (fun a b hab => by
          simpa using congrArg Prod.snd hab)
      · exact ih (i + 1)
      · intro q hq1 hq2
        obtain ⟨a, _, rfl⟩ := List.mem_map.mp hq1
        have hge := keyChunks_fst_ge ids (i + 1) m _ hq2
        simp at hge

/-- A list sorted by the non-strict (tsID, plantID) order with pairwise
distinct keys is pairwise strictly increasing. -/
theorem pairwise_rowLt_of_sorted_nodup (l : List OutputRow)
    (hs : List.Sorted rowLe l) (hn : (l.map keyOf).Nodup) :
    l.Pairwise rowLt := by
  have hpair : l.Pairwise (fun a b => keyOf a ≠ keyOf b) := by
    rw [List.Nodup, List.pairwise_map] at hn
    exact hn
  have hand := List.Pairwise.and hs hpair
  apply hand.imp
  intro a b hab
  obtain ⟨hle, hne⟩ := hab
  rcases hle with h | ⟨h1, h2⟩
  · exact Or.inl h
  · right
    refine ⟨h1, lt_of_le_of_ne h2 ?_⟩
    intro he
    apply hne
    simp only [keyOf, Prod.mk.injEq]
    exact ⟨h1, he⟩

/-- C5: for every completed run with pairwise-distinct site ids (within
int32 range, as is the fixed-width integer normalization of §4.4, and a
schedule short enough for `tsID` to fit in int32), the returned table is
strictly sorted by (timestamp index, site id) — ascending, hence with no
duplicate (site, timestamp index) pair.  The dense zero-based row
ordering is inherent to the list representation of the table. -/
theorem c5_sorted_no_duplicates (sites : List Site) (curve : List (Int × ℝ))
    (d1 d2 : Int) (fetch : RequestKey → Option GridSnapshot)
    (tbl : List OutputRow) (miss : List RequestKey)
    (hok : retrieve_data sites curve d1 d2 fetch = Except.ok (tbl, miss))
    (hids : (sites.map Site.id).Nodup)
    (hrange : ∀ s ∈ sites, -(2 ^ 31) ≤ s.id ∧ s.id < 2 ^ 31)
    (hN : (((files d1 d2).length : Nat) : Int) < 2 ^ 31) :
    tbl.Pairwise rowLt := by
  unfold retrieve_data at hok
  cases hrun : runLoop sites curve d1 fetch (files d1 d2) 0 ⟨[], [], []⟩ with
  | error e =>
      rw [hrun] at hok
      exact Except.noConfusion hok
  | ok st =>
      rw [hrun] at hok
      simp only [Except.ok.injEq, Prod.mk.injEq] at hok
      obtain ⟨h1, h2⟩ := hok
      subst h1
      set f32 : OutputRow → OutputRow := fun r =>
        { r with plantID := toInt32 r.plantID, tsID := toInt32 r.tsID } with hf32
      have hkeys := runLoop_keys sites curve d1 fetch (files d1 d2) 0 ⟨[], [], []⟩ st hrun
      simp only [List.map_nil, List.nil_append] at hkeys
      have hidr : ∀ a ∈ sites.map Site.id, -(2 ^ 31) ≤ a ∧ a < 2 ^ 31 := by
        intro a ha
        obtain ⟨s, hsmem, rfl⟩ := List.mem_map.mp ha
        exact hrange s hsmem
      have hmapkeys : (st.data.map f32).map keyOf =
          keyChunks (sites.map Site.id) 0 (files d1 d2).length := by
        rw [List.map_map]
        have hfun : (keyOf ∘ f32) =
            ((fun p : Int × Int => (toInt32 p.1, toInt32 p.2)) ∘ keyOf) := rfl
        rw [hfun, ← List.map_map, hkeys]
        exact keyChunks_map_toInt32 (sites.map Site.id) hidr 0
          (files d1 d2).length (by simpa using hN)
      apply pairwise_rowLt_of_sorted_nodup
      · exact List.sorted_insertionSort rowLe _
      · have hperm : List.Perm
            ((List.insertionSort rowLe (st.data.map f32)).map keyOf)
            ((st.data.map f32).map keyOf) :=
          (List.perm_insertionSort rowLe (st.data.map f32)).map keyOf
        rw [hperm.nodup_iff, hmapkeys]
        exact keyChunks_nodup (sites.map Site.id) hids 0 (files d1 d2).length

/-- Witness for C5 at a concrete completed run: two sites (ids 3 and 9),
one scheduled day with every fetch failing; the returned 48-row table is
strictly sorted by (tsID, plantID). -/
theorem c5_sorted_no_duplicates_witness :
    retrieve_data [⟨3, 0, 0, 100⟩, ⟨9, 0, 0, 50⟩] [] 0 0 (fun _ => none) =
      Except.ok
        ((List.range 24).flatMap (fun i =>
          [⟨3, none, none, none, (i : Int), (i : Int) + 1⟩,
           ⟨9, none, none, none, (i : Int), (i : Int) + 1⟩]),
         (List.range 24).map (fun h => ((0 : Int), h))) ∧
    ((List.range 24).flatMap (fun i =>
      [⟨3, none, none, none, (i : Int), (i : Int) + 1⟩,
       (⟨9, none, none, none, (i : Int), (i : Int) + 1⟩ : OutputRow)])).Pairwise
      rowLt := by
  constructor
  · rfl
  · exact c5_sorted_no_duplicates [⟨3, 0, 0, 100⟩, ⟨9, 0, 0, 50⟩] [] 0 0
      (fun _ => none) _ _ rfl (by decide) (by decide) (by decide)

/-- Witness for C6 at a concrete completed run: one site, one scheduled
day whose 24 fetches all fail — 24 = 1 × ((0 − 0 + 1) × 24) rows. -/
theorem c6_row_count_witness :
    retrieve_data [⟨7, 0, 0, 100⟩] [] 0 0 (fun _ => none) =
      Except.ok
        ((List.range 24).map (fun i =>
          ⟨7, none, none, none, (i : Int), (i : Int) + 1⟩),
         (List.range 24).map (fun h => ((0 : Int), h))) ∧
    (0 : Int) ≤ 0 ∧
    ((List.range 24).map (fun i =>
      (⟨7, none, none, none, (i : Int), (i : Int) + 1⟩ : OutputRow))).length =
      1 * (((0 : Int) - 0 + 1).toNat * 24) := by
  refine ⟨rfl, le_refl 0, ?_⟩
  exact c6_row_count [⟨7, 0, 0, 100⟩] [] 0 0 (fun _ => none) _ _ rfl (le_refl 0)

end Rap
